import Mathlib

/-!
Verification of the flashcard-ai repository: a shallow embedding of the
extraction engine, the generation/scheduling pipeline and the SRS scheduler,
with theorems settling the specification's claims against the code.

Conventions of the embedding:
* JavaScript numbers used for SRS arithmetic are modelled as rationals (ℚ);
  `Math.round` is modelled as `jsRound` (floor of x + 1/2, the JS semantics).
* Optional TS fields (`isValid?: boolean`, `contextText?: string`,
  `ignoredImages?: ExtractedImage[]`) are modelled as `Option`.
* Network calls are modelled as oracles: an attempt either yields a parsed
  payload or an error-message string, exactly the information the source
  inspects afterwards.
* PNG encoding of a pixel buffer (`canvas.toDataURL`) is an injective
  external function, so the deduplication key "identical data URL" is
  modelled as equality of (width, height, RGBA buffer).
-/

namespace FlashcardAI

instance {ε α : Type _} [DecidableEq ε] [DecidableEq α] : DecidableEq (Except ε α)
  | .error a, .error b =>
    if h : a = b then .isTrue (h ▸ rfl)
    else .isFalse (fun hc => h (Except.error.inj hc))
  | .error _, .ok _ => .isFalse (fun hc => Except.noConfusion hc)
  | .ok _, .error _ => .isFalse (fun hc => Except.noConfusion hc)
  | .ok a, .ok b =>
    if h : a = b then .isTrue (h ▸ rfl)
    else .isFalse (fun hc => h (Except.ok.inj hc))

/-- Card lifecycle status, from `src/types.ts` (`FlashcardData.status`). -/
inductive CardStatus where
  | pending
  | generating
  | completed
  | error
deriving DecidableEq, Repr

/-- `ExtractedImage` from `src/types.ts`. -/
structure ExtractedImage where
  id : String
  dataUrl : String
  pageIndex : ℕ
  contextText : String
deriving DecidableEq, Repr

/-- `FlashcardData` from `src/types.ts` (SRS fields carried separately by the
scheduler model; the generation pipeline only reads the fields below). -/
structure FlashcardData where
  id : String
  imageId : String
  imageSrc : String
  name : String
  description : String
  status : CardStatus
  contextText : Option String
deriving DecidableEq, Repr

/-- `Deck` from `src/types.ts`: `ignoredImages` is an optional field. -/
structure Deck where
  id : String
  title : String
  cards : List FlashcardData
  ignoredImages : Option (List ExtractedImage)
deriving DecidableEq, Repr

/-- The provider result shape returned by `generateFlashcardContent`
(`{ name: string; description: string; isValid?: boolean }`). -/
structure GenContent where
  name : String
  description : String
  isValid : Option Bool
deriving DecidableEq, Repr

/-! ## SRS scheduler (`handleRateCard` in `src/App.tsx` /
`src/contexts/AuthContext.tsx`) -/

/-- JavaScript `Math.round`: round half towards positive infinity. -/
def jsRound (q : ℚ) : ℤ := ⌊q + 1/2⌋

/-- The SRS state read out of a card (`let { interval = 0, reps = 0,
ease = 2.5 } = currentCard`). -/
structure SrsState where
  interval : ℚ
  reps : ℕ
  ease : ℚ
deriving DecidableEq, Repr

/-- Result of one review: updated SRS state plus the `nextReview` timestamp. -/
structure SrsResult where
  interval : ℚ
  reps : ℕ
  ease : ℚ
  nextReview : ℚ
deriving DecidableEq, Repr

/-- The scheduling computation of `handleRateCard`, quality grades are
1 = Again, 2 = Hard, 3 = Good, 4 = Easy; `now` is `Date.now()` in ms. -/
def scheduleCard (st : SrsState) (quality : ℕ) (now : ℤ) : SrsResult :=
  if quality = 1 then
    { interval := 1, reps := 0, ease := st.ease,
      nextReview := (now : ℚ) + 1 * 86400000 }
  else
    let reps := st.reps + 1
    let interval : ℚ :=
      if reps = 1 then 1
      else if reps = 2 then 6
      else (jsRound (st.interval * st.ease) : ℚ)
    let ease :=
      if quality = 2 then max 1.3 (st.ease - 0.2)
      else if quality = 4 then st.ease + 0.15
      else st.ease
    { interval := interval, reps := reps, ease := ease,
      nextReview := (now : ℚ) + interval * 86400000 }

/-- Project the updated scheduling state out of a review result. -/
def SrsResult.toState (r : SrsResult) : SrsState :=
  { interval := r.interval, reps := r.reps, ease := r.ease }

/-- C3: the SRS scheduler is a pure function of `{interval, reps, ease}` and
the quality grade: quality 1 resets `reps := 0`, `interval := 1` with ease
unchanged; quality 2/3/4 increments `reps`, sets `interval` to 1, 6, or
`round(interval * ease)` by the new reps count, adjusts ease by
`max(1.3, ease - 0.2)` / unchanged / `ease + 0.15`, and always sets
`nextReviewAt := now + interval * 86400000`; from `{interval:0, reps:0,
ease:2.5}` the quality sequence `[3,3,3]` yields intervals `[1, 6, 15]` with
ease `2.5` throughout. -/
theorem srs_scheduler_spec :
    (∀ (st : SrsState) (now : ℤ), scheduleCard st 1 now =
        { interval := 1, reps := 0, ease := st.ease,
          nextReview := (now : ℚ) + 1 * 86400000 }) ∧
    (∀ (st : SrsState) (q : ℕ) (now : ℤ), q = 2 ∨ q = 3 ∨ q = 4 →
        (scheduleCard st q now).reps = st.reps + 1 ∧
        (scheduleCard st q now).interval =
          (if st.reps + 1 = 1 then (1 : ℚ) else if st.reps + 1 = 2 then 6
           else (jsRound (st.interval * st.ease) : ℚ)) ∧
        (scheduleCard st q now).ease =
          (if q = 2 then max (13/10) (st.ease - 2/10)
           else if q = 4 then st.ease + 15/100 else st.ease) ∧
        (scheduleCard st q now).nextReview =
          (now : ℚ) + (scheduleCard st q now).interval * 86400000) ∧
    (∀ n₁ n₂ n₃ : ℤ,
        (scheduleCard ⟨0, 0, 5/2⟩ 3 n₁).interval = 1 ∧
        (scheduleCard ⟨0, 0, 5/2⟩ 3 n₁).ease = 5/2 ∧
        (scheduleCard (scheduleCard ⟨0, 0, 5/2⟩ 3 n₁).toState 3 n₂).interval = 6 ∧
        (scheduleCard (scheduleCard ⟨0, 0, 5/2⟩ 3 n₁).toState 3 n₂).ease = 5/2 ∧
        (scheduleCard (scheduleCard
            (scheduleCard ⟨0, 0, 5/2⟩ 3 n₁).toState 3 n₂).toState 3 n₃).interval = 15 ∧
        (scheduleCard (scheduleCard
            (scheduleCard ⟨0, 0, 5/2⟩ 3 n₁).toState 3 n₂).toState 3 n₃).ease = 5/2) := by
  refine ⟨fun st now => rfl, fun st q now hq => ?_, fun n₁ n₂ n₃ => ?_⟩
  · rcases hq with rfl | rfl | rfl <;>
      refine ⟨rfl, rfl, ?_, rfl⟩ <;> simp [scheduleCard] <;> norm_num
  · simp [scheduleCard, SrsResult.toState, jsRound]
    norm_num [Int.floor_eq_iff]

/-- Concrete instantiation of `srs_scheduler_spec` at state
`{interval:3, reps:2, ease:2.5}` with quality 2. -/
theorem srs_scheduler_spec_witness :
    (scheduleCard ⟨3, 2, 5/2⟩ 2 0).reps = 3 ∧
    (scheduleCard ⟨3, 2, 5/2⟩ 2 0).interval = 8 ∧
    (scheduleCard ⟨3, 2, 5/2⟩ 2 0).ease = 23/10 := by
  obtain ⟨hr, hi, he, -⟩ := srs_scheduler_spec.2.1 ⟨3, 2, 5/2⟩ 2 0 (Or.inl rfl)
  refine ⟨hr, ?_, ?_⟩
  · rw [hi]; norm_num [jsRound]
  · rw [he]; norm_num

/-! ## Generation pipeline per-card update (`processQueue` in
`src/contexts/AuthContext.tsx`, the refined App variant) -/

/-- Does the first list start with the second one?  (Executable model of
JavaScript `String.prototype.startsWith`, stated over character lists so the
kernel can evaluate it.) -/
def leadsWith [DecidableEq α] : List α → List α → Bool
  | _, [] => true
  | [], _ :: _ => false
  | a :: as, b :: bs => a = b && leadsWith as bs

/-- Does `pat` occur contiguously inside the list?  (Executable model of
JavaScript `String.prototype.includes`.) -/
def occursList [DecidableEq α] (pat : List α) : List α → Bool
  | [] => leadsWith ([] : List α) pat
  | a :: rest => leadsWith (a :: rest) pat || occursList pat rest

/-- JavaScript `string.includes(pat)`. -/
def jsIncludes (s pat : String) : Bool := occursList pat.data s.data

/-- JavaScript `string.toLowerCase()` (ASCII level). -/
def jsToLower (s : String) : String := String.mk (s.data.map Char.toLower)

/-- Trim whitespace from both ends of a character list. -/
def trimChars (l : List Char) : List Char :=
  ((l.dropWhile Char.isWhitespace).reverse.dropWhile Char.isWhitespace).reverse

/-- JavaScript `string.trim()`. -/
def jsTrim (s : String) : String := String.mk (trimChars s.data)

/-- Split a character list at every occurrence of a separator character,
keeping empty segments (JavaScript `string.split(sep)` semantics). -/
def splitOnChar (sep : Char) (l : List Char) : List (List Char) :=
  l.foldr
    (fun c acc =>
      match acc with
      | [] => [[c]]
      | cur :: rest => if c = sep then [] :: cur :: rest else (c :: cur) :: rest)
    [[]]

/-- JavaScript `string.split('-')` and friends. -/
def jsSplit (sep : Char) (s : String) : List String :=
  (splitOnChar sep s.data).map String.mk

/-- JavaScript `parseInt` restricted to the id strings the pipeline feeds it:
parse the longest leading run of decimal digits, `none` when there is none
(NaN). -/
def jsParseInt (s : String) : Option ℕ :=
  let digits := s.data.takeWhile Char.isDigit
  if digits.isEmpty then none
  else some (digits.foldl (fun acc c => acc * 10 + (c.toNat - 48)) 0)

/-- Page-index recovery from a card id's naming convention
(`pptx-<page>-...` for PPTX, `<page>-<w>x<h>-...` for PDF), from the
`isValid === false` branch of `processQueue`. -/
def recoverPageIndex (id : String) : ℕ :=
  let parts := jsSplit '-' id
  if leadsWith id.data "pptx-".data ∧ 2 ≤ parts.length then
    (jsParseInt (parts.getD 1 "")).getD 0
  else
    (jsParseInt (parts.getD 0 "")).getD 0

/-- The `ExtractedImage` reconstructed from a card when its provider result
came back `isValid === false`. -/
def buildIgnoredImage (card : FlashcardData) : ExtractedImage :=
  { id := card.id
    dataUrl := card.imageSrc
    pageIndex := recoverPageIndex card.id
    contextText := card.contextText.getD "" }

/-- Case/whitespace name normalization used by the duplicate check
(`name.toLowerCase().trim()`). -/
def normName (s : String) : String := jsTrim (jsToLower s)

/-- The duplicate test of `processQueue`: some other card is already
`completed` with the same normalized name. -/
def isDuplicateOf (cards : List FlashcardData) (cardId : String) (nm : String) : Bool :=
  cards.any fun c =>
    c.status == CardStatus.completed && c.id != cardId &&
      normName c.name == normName nm

/-- The deck update `processQueue` performs for one card once its provider
content arrives, from `src/contexts/AuthContext.tsx` lines 361-415:
`isValid === false` moves the card to `ignoredImages`; `name === 'Error'`
marks it failed; otherwise it is completed unless a completed duplicate name
exists, in which case it is dropped. -/
def processCardResult (deck : Deck) (card : FlashcardData) (content : GenContent) : Deck :=
  if content.isValid = some false then
    { deck with
        cards := deck.cards.filter (fun c => c.id != card.id)
        ignoredImages := some ((deck.ignoredImages.getD []) ++ [buildIgnoredImage card]) }
  else if content.name = "Error" then
    { deck with
        cards := deck.cards.map fun c =>
          if c.id = card.id then
            { c with name := "Generation Failed", description := content.description,
                     status := CardStatus.error }
          else c }
  else if isDuplicateOf deck.cards card.id content.name then
    { deck with cards := deck.cards.filter (fun c => c.id != card.id) }
  else
    { deck with
        cards := deck.cards.map fun c =>
          if c.id = card.id then
            { c with name := content.name, description := content.description,
                     status := CardStatus.completed }
          else c }

/-- Count of completed cards carrying the given (normalized) name. -/
def countCompletedNamed (cards : List FlashcardData) (nm : String) : ℕ :=
  cards.countP fun c =>
    c.status == CardStatus.completed && normName c.name == normName nm

/-- C1: a provider result with `isValid === false` removes the card from the
deck's card list and appends the reconstructed `ExtractedImage` (dataUrl from
the card's image, page index recovered from the id, context carried over) to
`ignoredImages`, where it then occurs exactly once. -/
theorem invalid_result_archived (deck : Deck) (card : FlashcardData)
    (content : GenContent) (hv : content.isValid = some false)
    (hfresh : ∀ im ∈ deck.ignoredImages.getD [], im.id ≠ card.id) :
    (∀ c ∈ (processCardResult deck card content).cards, c.id ≠ card.id) ∧
    ((processCardResult deck card content).ignoredImages.getD []).countP
        (fun im => im.id == card.id) = 1 ∧
    (processCardResult deck card content).ignoredImages.getD [] =
      deck.ignoredImages.getD [] ++ [buildIgnoredImage card] ∧
    (buildIgnoredImage card).dataUrl = card.imageSrc ∧
    (buildIgnoredImage card).pageIndex = recoverPageIndex card.id ∧
    (buildIgnoredImage card).contextText = card.contextText.getD "" := by
  refine ⟨?_, ?_, ?_, rfl, rfl, rfl⟩
  · intro c hc
    simp only [processCardResult, if_pos hv, List.mem_filter, bne_iff_ne, ne_eq] at hc
    exact hc.2
  · have h0 : (deck.ignoredImages.getD []).countP (fun im => im.id == card.id) = 0 := by
      rw [List.countP_eq_zero]
      intro im him
      simpa using hfresh im him
    simp [processCardResult, if_pos hv, List.countP_append, h0,
      buildIgnoredImage, List.countP_cons]
  · simp [processCardResult, if_pos hv]

/-- Concrete instantiation of `invalid_result_archived`: a one-card deck whose
single card (id `pptx-7-r3`) gets an `isValid:false` result. -/
theorem invalid_result_archived_witness :
    (∀ c ∈ (processCardResult
        ⟨"d1", "t", [⟨"pptx-7-r3", "pptx-7-r3", "img.png", "", "",
            CardStatus.generating, some "ctx"⟩], none⟩
        ⟨"pptx-7-r3", "pptx-7-r3", "img.png", "", "",
            CardStatus.generating, some "ctx"⟩
        ⟨"X", "Y", some false⟩).cards, c.id ≠ "pptx-7-r3") ∧
    ((processCardResult
        ⟨"d1", "t", [⟨"pptx-7-r3", "pptx-7-r3", "img.png", "", "",
            CardStatus.generating, some "ctx"⟩], none⟩
        ⟨"pptx-7-r3", "pptx-7-r3", "img.png", "", "",
            CardStatus.generating, some "ctx"⟩
        ⟨"X", "Y", some false⟩).ignoredImages.getD []).countP
        (fun im => im.id == "pptx-7-r3") = 1 := by
  have h := invalid_result_archived
    ⟨"d1", "t", [⟨"pptx-7-r3", "pptx-7-r3", "img.png", "", "",
        CardStatus.generating, some "ctx"⟩], none⟩
    ⟨"pptx-7-r3", "pptx-7-r3", "img.png", "", "",
        CardStatus.generating, some "ctx"⟩
    ⟨"X", "Y", some false⟩ rfl (by simp)
  exact ⟨h.1, h.2.1⟩

/-- C4: for a valid, non-`Error` result, the card is dropped when another
completed card already carries the same normalized name (leaving exactly one
completed card with that name), and otherwise transitions to `completed` with
the result's name and description. -/
theorem duplicate_name_suppressed (deck : Deck) (card : FlashcardData)
    (content : GenContent) (hv : content.isValid ≠ some false)
    (hn : content.name ≠ "Error") :
    (isDuplicateOf deck.cards card.id content.name = true →
        (processCardResult deck card content).cards =
          deck.cards.filter (fun c => c.id != card.id)) ∧
    (isDuplicateOf deck.cards card.id content.name = false →
        (processCardResult deck card content).cards =
          deck.cards.map (fun c =>
            if c.id = card.id then
              { c with name := content.name, description := content.description,
                       status := CardStatus.completed }
            else c)) ∧
    (isDuplicateOf deck.cards card.id content.name = true →
     (∀ c ∈ deck.cards, c.id = card.id → c.status ≠ CardStatus.completed) →
     countCompletedNamed deck.cards content.name = 1 →
     countCompletedNamed (processCardResult deck card content).cards
        content.name = 1) := by
  refine ⟨fun hdup => ?_, fun hdup => ?_, fun hdup hgen hcount => ?_⟩
  · simp [processCardResult, if_neg hv, if_neg hn, hdup]
  · simp [processCardResult, if_neg hv, if_neg hn, hdup]
  · have hcards : (processCardResult deck card content).cards =
        deck.cards.filter (fun c => c.id != card.id) := by
      simp [processCardResult, if_neg hv, if_neg hn, hdup]
    rw [countCompletedNamed, hcards, List.countP_filter, ← hcount,
      countCompletedNamed]
    apply List.countP_congr
    intro c hc
    constructor
    · intro hb
      exact (Bool.and_elim_left hb)
    · intro hb
      have hne : c.id ≠ card.id := by
        intro heq
        have hcomp : c.status = CardStatus.completed := by
          have := Bool.and_elim_left hb
          simpa using this
        exact hgen c hc heq hcomp
      simp [hb, hne]

/-- Concrete instantiation of `duplicate_name_suppressed`: a deck holding a
completed card named `Scalpel` and a generating card that receives the result
name ` scalpel `. -/
theorem duplicate_name_suppressed_witness :
    countCompletedNamed (processCardResult
        ⟨"d1", "t", [⟨"a", "a", "s1", "Scalpel", "d",
            CardStatus.completed, none⟩,
          ⟨"b", "b", "s2", "", "", CardStatus.generating, none⟩], none⟩
        ⟨"b", "b", "s2", "", "", CardStatus.generating, none⟩
        ⟨" scalpel ", "desc", some true⟩).cards " scalpel " = 1 := by
  have h := (duplicate_name_suppressed
    ⟨"d1", "t", [⟨"a", "a", "s1", "Scalpel", "d",
        CardStatus.completed, none⟩,
      ⟨"b", "b", "s2", "", "", CardStatus.generating, none⟩], none⟩
    ⟨"b", "b", "s2", "", "", CardStatus.generating, none⟩
    ⟨" scalpel ", "desc", some true⟩ (by simp) (by simp)).2.2
  apply h
  · decide
  · decide
  · decide

/-! ## Primary-provider retry loop (`generateFlashcardContent`, google branch,
`src/services/geminiService.ts`) -/

/-- The transient-failure test of the google branch:
`error.message.includes('429') || ... ('quota') || ('exhausted') || ('503')`. -/
def isQuotaError (e : String) : Bool :=
  jsIncludes e "429" || jsIncludes e "quota" || jsIncludes e "exhausted" ||
    jsIncludes e "503"

/-- The sentinel returned when retries are exhausted or the failure is not
transient. -/
def errorSentinel (isQuota : Bool) : GenContent :=
  { name := "Error"
    description :=
      if isQuota then "Quota limit reached. Please retry later or use a paid API key."
      else "Could not identify the object."
    isValid := some true }

/-- The google-branch `while (attempt <= MAX_RETRIES)` loop.  `oracle n` is
the outcome of the `(n+1)`-th model call: a parsed `GenContent` or the thrown
error's message.  Returns the value the function returns plus the list of
backoff sleeps (in ms) it performed, in order.  `fuel` is `MAX_RETRIES + 1 -
attempt`; the loop body always returns or increments `attempt`, so fuel 4
from attempt 0 covers every reachable iteration. -/
def geminiAux (oracle : ℕ → Except String GenContent) : ℕ → ℕ → GenContent × List ℕ
  | _, 0 => ({ name := "Error", description := "Unknown error", isValid := some true }, [])
  | attempt, fuel + 1 =>
    match oracle attempt with
    | .ok r => (r, [])
    | .error e =>
      if isQuotaError e ∧ attempt < 3 then
        let rest := geminiAux oracle (attempt + 1) fuel
        (rest.1, 2 ^ (attempt + 1) * 1000 :: rest.2)
      else
        (errorSentinel (isQuotaError e), [])

/-- The google branch of `generateFlashcardContent`: run the retry loop from
attempt 0. -/
def generateGemini (oracle : ℕ → Except String GenContent) : GenContent × List ℕ :=
  geminiAux oracle 0 4

/-- C2: the google branch retries transient failures up to 3 times with
backoff sleeps of 2000, 4000, 8000 ms before the first, second and third
retry; a call failing twice with quota signals then succeeding sleeps
2000 + 4000 = 6000 ms total and returns the success value; a non-transient
failure returns the sentinel `{name:"Error", description:"Could not identify
the object.", isValid:true}` at once, and exhausted retries return the quota
sentinel — in both cases as a normal value. -/
theorem gemini_retry_backoff (oracle : ℕ → Except String GenContent) :
    (∀ e₀ e₁ r, oracle 0 = .error e₀ → isQuotaError e₀ = true →
        oracle 1 = .error e₁ → isQuotaError e₁ = true → oracle 2 = .ok r →
        generateGemini oracle = (r, [2000, 4000]) ∧
        (generateGemini oracle).2.sum = 6000) ∧
    (∀ e, oracle 0 = .error e → isQuotaError e = false →
        generateGemini oracle =
          ({ name := "Error", description := "Could not identify the object.",
             isValid := some true }, [])) ∧
    ((∀ i ≤ 3, ∃ e, oracle i = .error e ∧ isQuotaError e = true) →
        generateGemini oracle =
          ({ name := "Error",
             description := "Quota limit reached. Please retry later or use a paid API key.",
             isValid := some true }, [2000, 4000, 8000])) := by
  refine ⟨fun e₀ e₁ r h₀ hq₀ h₁ hq₁ h₂ => ?_, fun e h₀ hq₀ => ?_, fun h => ?_⟩
  · have hg : generateGemini oracle = (r, [2000, 4000]) := by
      simp [generateGemini, geminiAux, h₀, hq₀, h₁, hq₁, h₂]
    exact ⟨hg, by rw [hg]; rfl⟩
  · simp [generateGemini, geminiAux, h₀, hq₀, errorSentinel]
  · obtain ⟨e₀, h₀, hq₀⟩ := h 0 (by norm_num)
    obtain ⟨e₁, h₁, hq₁⟩ := h 1 (by norm_num)
    obtain ⟨e₂, h₂, hq₂⟩ := h 2 (by norm_num)
    obtain ⟨e₃, h₃, hq₃⟩ := h 3 (by norm_num)
    simp [generateGemini, geminiAux, h₀, hq₀, h₁, hq₁, h₂, hq₂, h₃, hq₃,
      errorSentinel]

/-- Concrete instantiation of `gemini_retry_backoff`: an oracle failing with a
`429` signal on the first two attempts and succeeding on the third. -/
theorem gemini_retry_backoff_witness :
    generateGemini (fun n => if n < 2 then .error "Error 429" else
        .ok ⟨"Forceps", "d", some true⟩) =
      (⟨"Forceps", "d", some true⟩, [2000, 4000]) ∧
    (generateGemini (fun n => if n < 2 then .error "Error 429" else
        .ok ⟨"Forceps", "d", some true⟩)).2.sum = 6000 :=
  (gemini_retry_backoff _).1 "Error 429" "Error 429" ⟨"Forceps", "d", some true⟩
    rfl (by decide) rfl (by decide) rfl

/-! ## Secondary-provider call (`generateOpenAIContent` and the openai branch
of `generateFlashcardContent`, `src/services/geminiService.ts`) -/

/-- A parsed response payload: the JSON object extracted from the chat
completion text.  Each field is optional (absent key = `none`). -/
structure OAIRaw where
  name : Option String
  description : Option String
  isValid : Option Bool
deriving DecidableEq, Repr

/-- `generateOpenAIContent`: the multimodal attempt and the text-only
fallback attempt are oracles, each yielding the parsed payload or the thrown
error's message (HTTP failure, missing content or JSON-parse failure alike).
The second component counts how many text-only fallback calls were issued. -/
def generateOpenAIContent (useProxy : Bool)
    (attemptImage attemptText : Except String OAIRaw) :
    Except String OAIRaw × ℕ :=
  match attemptImage with
  | .ok j => (.ok j, 0)
  | .error e =>
    let es := jsToLower e
    if jsIncludes es "401" || jsIncludes es "unauthorized" then
      (.error "Invalid API Key (401). Please check your settings.", 0)
    else if jsIncludes es "failed to fetch" && !useProxy then
      (.error "Network Error (CORS). Enable \x27CORS Proxy\x27 in Settings to fix this.", 0)
    else
      match attemptText with
      | .ok j => (.ok j, 1)
      | .error fe =>
        let finalMsg :=
          if jsIncludes fe "failed to fetch" && !useProxy then
            "Network Error (CORS). Enable \x27CORS Proxy\x27 in Settings."
          else
            e ++ " (Fallback: " ++ fe ++ ")"
        (.error finalMsg, 1)

/-- The `||`-defaulting normalization of the openai branch of
`generateFlashcardContent` (empty string and absent field both fall back). -/
def normStr (o : Option String) (dflt : String) : String :=
  match o with
  | some s => if s = "" then dflt else s
  | none => dflt

/-- The openai branch of `generateFlashcardContent`: call
`generateOpenAIContent`, normalize a success, convert any failure into the
`{name:"Error", ...}` record — never a thrown exception. -/
def generateFlashcardContentOpenAI (useProxy : Bool)
    (attemptImage attemptText : Except String OAIRaw) : GenContent × ℕ :=
  match generateOpenAIContent useProxy attemptImage attemptText with
  | (.ok r, n) =>
      ({ name := normStr r.name "Unknown"
         description := normStr r.description "No description provided"
         isValid := some (r.isValid.getD true) }, n)
  | (.error e, n) =>
      ({ name := "Error", description := e, isValid := some true }, n)

/-- C5: a first-attempt failure whose text contains `401` or `unauthorized`
issues no text-only fallback call (fallback count 0) and fails immediately
with the invalid-API-key message. -/
theorem openai_auth_no_fallback (useProxy : Bool)
    (attemptText : Except String OAIRaw) (e : String)
    (h : jsIncludes (jsToLower e) "401" = true ∨
         jsIncludes (jsToLower e) "unauthorized" = true) :
    generateOpenAIContent useProxy (.error e) attemptText =
      (.error "Invalid API Key (401). Please check your settings.", 0) := by
  rcases h with h | h <;> simp [generateOpenAIContent, h]

/-- Concrete instantiation of `openai_auth_no_fallback` at a literal
`API Error 401` failure. -/
theorem openai_auth_no_fallback_witness :
    generateOpenAIContent false (.error "API Error 401: bad key")
        (.ok ⟨some "X", none, none⟩) =
      (.error "Invalid API Key (401). Please check your settings.", 0) :=
  openai_auth_no_fallback false (.ok ⟨some "X", none, none⟩)
    "API Error 401: bad key" (Or.inl (by decide))

/-- C6 as stated is refuted: the first attempt failing with a network error
(`Failed to fetch`, not an authentication failure) while the CORS proxy is
disabled issues zero fallback calls and discards the fallback oracle's
success. -/
theorem openai_fallback_claim_counterexample :
    generateOpenAIContent false (.error "TypeError: Failed to fetch")
        (.ok ⟨some "Scalpel", some "d", some true⟩) =
      (.error "Network Error (CORS). Enable \x27CORS Proxy\x27 in Settings to fix this.", 0) ∧
    jsIncludes (jsToLower "TypeError: Failed to fetch") "401" = false ∧
    jsIncludes (jsToLower "TypeError: Failed to fetch") "unauthorized" = false := by
  decide

/-- C6 (amended): a first-attempt failure that is neither an authentication
failure nor a proxy-less `failed to fetch` network failure triggers exactly
one text-only fallback call, whose successful result is returned. -/
theorem openai_fallback_once (useProxy : Bool)
    (attemptText : Except String OAIRaw) (e : String)
    (hauth : jsIncludes (jsToLower e) "401" = false)
    (hauth' : jsIncludes (jsToLower e) "unauthorized" = false)
    (hcors : (jsIncludes (jsToLower e) "failed to fetch" && !useProxy) = false) :
    (generateOpenAIContent useProxy (.error e) attemptText).2 = 1 ∧
    (∀ j, attemptText = .ok j →
        generateOpenAIContent useProxy (.error e) attemptText = (.ok j, 1)) := by
  cases attemptText <;>
    simp [generateOpenAIContent, hauth, hauth', hcors]

/-- Concrete instantiation of `openai_fallback_once` at a `400 Bad Request`
first attempt whose fallback succeeds. -/
theorem openai_fallback_once_witness :
    generateOpenAIContent false (.error "API Error 400: bad request")
        (.ok ⟨some "Scalpel", some "d", some true⟩) =
      (.ok ⟨some "Scalpel", some "d", some true⟩, 1) :=
  (openai_fallback_once false (.ok ⟨some "Scalpel", some "d", some true⟩)
      "API Error 400: bad request" (by decide) (by decide) (by decide)).2
    ⟨some "Scalpel", some "d", some true⟩ rfl

/-- `normStr` never yields the empty string when its default is nonempty. -/
theorem normStr_ne_empty (o : Option String) (d : String) (hd : d ≠ "") :
    normStr o d ≠ "" := by
  cases o with
  | none => simpa [normStr] using hd
  | some s =>
    by_cases hs : s = "" <;> simp [normStr, hs, hd]

/-- C10: with provider `openai`, `generateFlashcardContent` never throws —
every failure of `generateOpenAIContent` becomes the normally returned record
`{name:"Error", description:<message>, isValid:true}`, and every success is
normalized so `name`, `description` and `isValid` are always present, with
defaults `"Unknown"`, `"No description provided"` and `true`. -/
theorem openai_total_normalized (useProxy : Bool)
    (attemptImage attemptText : Except String OAIRaw) :
    (generateFlashcardContentOpenAI useProxy attemptImage attemptText).1.isValid
        ≠ none ∧
    (generateFlashcardContentOpenAI useProxy attemptImage attemptText).1.name
        ≠ "" ∧
    (∀ e n, generateOpenAIContent useProxy attemptImage attemptText = (.error e, n) →
        generateFlashcardContentOpenAI useProxy attemptImage attemptText =
          ({ name := "Error", description := e, isValid := some true }, n)) ∧
    (∀ r n, generateOpenAIContent useProxy attemptImage attemptText = (.ok r, n) →
        generateFlashcardContentOpenAI useProxy attemptImage attemptText =
          ({ name := normStr r.name "Unknown"
             description := normStr r.description "No description provided"
             isValid := some (r.isValid.getD true) }, n)) := by
  rcases hgen : generateOpenAIContent useProxy attemptImage attemptText with ⟨res, n⟩
  cases res with
  | ok r =>
    refine ⟨?_, ?_, ?_, ?_⟩
    · simp [generateFlashcardContentOpenAI, hgen]
    · simpa [generateFlashcardContentOpenAI, hgen] using
        normStr_ne_empty r.name "Unknown" (by decide)
    · intro e m he
      simp at he
    · intro r' m hr
      simp only [Prod.mk.injEq, Except.ok.injEq] at hr
      obtain ⟨rfl, rfl⟩ := hr
      simp [generateFlashcardContentOpenAI, hgen]
  | error e =>
    refine ⟨?_, ?_, ?_, ?_⟩
    · simp [generateFlashcardContentOpenAI, hgen]
    · simp [generateFlashcardContentOpenAI, hgen]
    · intro e' m he
      simp only [Prod.mk.injEq, Except.error.injEq] at he
      obtain ⟨rfl, rfl⟩ := he
      simp [generateFlashcardContentOpenAI, hgen]
    · intro r m hr
      simp at hr

/-- Concrete instantiation of `openai_total_normalized`: an authentication
failure on the first attempt produces the sentinel record normally. -/
theorem openai_total_normalized_witness :
    generateFlashcardContentOpenAI false (.error "API Error 401: no")
        (.error "unused") =
      ({ name := "Error",
         description := "Invalid API Key (401). Please check your settings.",
         isValid := some true }, 0) :=
  (openai_total_normalized false (.error "API Error 401: no")
      (.error "unused")).2.2.1
    "Invalid API Key (401). Please check your settings." 0 (by decide)

/-! ## PDF raster recovery (`processRawImage` in `src/services/pdfService.ts`
and `processImage` in the refined extraction variant) -/

/-- A raw image object handed over by the PDF backend: dimensions plus the
flat pixel buffer (byte values). -/
structure RawImage where
  width : ℕ
  height : ℕ
  data : List ℕ
deriving DecidableEq, Repr

/-- The RGB→RGBA expansion loop (`for k += 3`, alpha written as 255).  A
trailing fragment shorter than 3 cannot occur on the `w*h*3` branch. -/
def expand3 : List ℕ → List ℕ
  | r :: g :: b :: rest => r :: g :: b :: 255 :: expand3 rest
  | _ => []

/-- The grayscale→RGBA expansion loop (value replicated into R/G/B,
alpha 255). -/
def expand1 : List ℕ → List ℕ
  | v :: rest => v :: v :: v :: 255 :: expand1 rest
  | [] => []

/-- The channel-format ladder shared by both PDF recovery variants:
RGBA is copied through, RGB and grayscale are expanded, anything else is
unsupported. -/
def convertChannels (w h : ℕ) (data : List ℕ) : Option (List ℕ) :=
  if data.length = w * h * 4 then some data
  else if data.length = w * h * 3 then some (expand3 data)
  else if data.length = w * h then some (expand1 data)
  else none

/-- `processRawImage` from `src/services/pdfService.ts`: empty-buffer guard,
30px size filter, then channel conversion.  The produced RGBA buffer is what
the canvas encodes into the candidate's data URL. -/
def processRawImage (img : RawImage) : Option (List ℕ) :=
  if img.data.length = 0 then none
  else if img.width < 30 ∨ img.height < 30 then none
  else convertChannels img.width img.height img.data

/-- `processImage` from the refined extraction variant
(`src/unnamed/part_001`): 20px floor, minimum area 200, aspect-ratio window
`[0.02, 50]`, then the same channel conversion. -/
def processImage (img : RawImage) : Option (List ℕ) :=
  if img.data.length = 0 then none
  else if img.width < 20 ∨ img.height < 20 then none
  else if img.width * img.height < 200 then none
  else if (50 : ℚ) < (img.width : ℚ) / (img.height : ℚ) ∨
      (img.width : ℚ) / (img.height : ℚ) < 1/50 then none
  else convertChannels img.width img.height img.data

theorem expand3_cons (r g b : ℕ) (t : List ℕ) :
    expand3 (r :: g :: b :: t) = r :: g :: b :: 255 :: expand3 t := rfl

theorem expand3_length : ∀ (k : ℕ) (l : List ℕ), l.length = 3 * k →
    (expand3 l).length = 4 * k := by
  intro k
  induction k with
  | zero =>
    intro l h
    simp only [Nat.mul_zero, List.length_eq_zero] at h
    subst h
    rfl
  | succ k ih =>
    intro l h
    match l with
    | [] => simp [Nat.mul_succ] at h
    | [a] => simp [Nat.mul_succ] at h
    | [a, b] => simp [Nat.mul_succ] at h
    | a :: b :: c :: t =>
      have ht : t.length = 3 * k := by
        simp [Nat.mul_succ] at h
        omega
      simp [expand3, ih t ht, Nat.mul_succ]

theorem expand1_length (l : List ℕ) : (expand1 l).length = 4 * l.length := by
  induction l with
  | nil => rfl
  | cons v t ih => simp [expand1, ih]; omega

/-- Peel four leading cons cells off a `getD` access. -/
theorem getD_cons4 (a b c d : ℕ) (l : List ℕ) (n : ℕ) :
    (a :: b :: c :: d :: l).getD (n + 4) 0 = l.getD n 0 := by
  have h : n + 4 = (((n + 1) + 1) + 1) + 1 := by omega
  rw [h, List.getD_cons_succ, List.getD_cons_succ, List.getD_cons_succ,
    List.getD_cons_succ]

/-- Peel three leading cons cells off a `getD` access. -/
theorem getD_cons3 (a b c : ℕ) (l : List ℕ) (n : ℕ) :
    (a :: b :: c :: l).getD (n + 3) 0 = l.getD n 0 := by
  have h : n + 3 = ((n + 1) + 1) + 1 := by omega
  rw [h, List.getD_cons_succ, List.getD_cons_succ, List.getD_cons_succ]

theorem expand3_get : ∀ (k : ℕ) (l : List ℕ) (i : ℕ), l.length = 3 * k →
    i < k →
    (expand3 l).getD (4 * i) 0 = l.getD (3 * i) 0 ∧
    (expand3 l).getD (4 * i + 1) 0 = l.getD (3 * i + 1) 0 ∧
    (expand3 l).getD (4 * i + 2) 0 = l.getD (3 * i + 2) 0 ∧
    (expand3 l).getD (4 * i + 3) 0 = 255 := by
  intro k
  induction k with
  | zero => intro l i _ hi; omega
  | succ k ih =>
    intro l i h hi
    match l with
    | [] => simp [Nat.mul_succ] at h
    | [a] => simp [Nat.mul_succ] at h
    | [a, b] => simp [Nat.mul_succ] at h
    | a :: b :: c :: t =>
      have ht : t.length = 3 * k := by
        simp [Nat.mul_succ] at h
        omega
      cases i with
      | zero =>
        simp [expand3_cons, List.getD_cons_zero, List.getD_cons_succ]
      | succ i =>
        have hi' : i < k := by omega
        obtain ⟨h0, h1, h2, h3⟩ := ih t i ht hi'
        rw [expand3_cons]
        have e0 : 4 * (i + 1) = 4 * i + 4 := by ring
        have e1 : 4 * (i + 1) + 1 = (4 * i + 1) + 4 := by ring
        have e2 : 4 * (i + 1) + 2 = (4 * i + 2) + 4 := by ring
        have e3 : 4 * (i + 1) + 3 = (4 * i + 3) + 4 := by ring
        have f0 : 3 * (i + 1) = 3 * i + 3 := by ring
        have f1 : 3 * (i + 1) + 1 = (3 * i + 1) + 3 := by ring
        have f2 : 3 * (i + 1) + 2 = (3 * i + 2) + 3 := by ring
        refine ⟨?_, ?_, ?_, ?_⟩
        · rw [e0, getD_cons4, f0, getD_cons3, h0]
        · rw [e1, getD_cons4, f1, getD_cons3, h1]
        · rw [e2, getD_cons4, f2, getD_cons3, h2]
        · rw [e3, getD_cons4, h3]

theorem expand1_get : ∀ (l : List ℕ) (i : ℕ), i < l.length →
    (expand1 l).getD (4 * i) 0 = l.getD i 0 ∧
    (expand1 l).getD (4 * i + 1) 0 = l.getD i 0 ∧
    (expand1 l).getD (4 * i + 2) 0 = l.getD i 0 ∧
    (expand1 l).getD (4 * i + 3) 0 = 255 := by
  intro l
  induction l with
  | nil => intro i hi; simp at hi
  | cons v t ih =>
    intro i hi
    cases i with
    | zero => simp [expand1, List.getD_cons_zero, List.getD_cons_succ]
    | succ i =>
      have hi' : i < t.length := by simpa using hi
      obtain ⟨h0, h1, h2, h3⟩ := ih i hi'
      have e0 : 4 * (i + 1) = 4 * i + 4 := by ring
      have e1 : 4 * (i + 1) + 1 = (4 * i + 1) + 4 := by ring
      have e2 : 4 * (i + 1) + 2 = (4 * i + 2) + 4 := by ring
      have e3 : 4 * (i + 1) + 3 = (4 * i + 3) + 4 := by ring
      refine ⟨?_, ?_, ?_, ?_⟩
      · rw [show expand1 (v :: t) = v :: v :: v :: 255 :: expand1 t from rfl,
          e0, getD_cons4, h0, List.getD_cons_succ]
      · rw [show expand1 (v :: t) = v :: v :: v :: 255 :: expand1 t from rfl,
          e1, getD_cons4, h1, List.getD_cons_succ]
      · rw [show expand1 (v :: t) = v :: v :: v :: 255 :: expand1 t from rfl,
          e2, getD_cons4, h2, List.getD_cons_succ]
      · rw [show expand1 (v :: t) = v :: v :: v :: 255 :: expand1 t from rfl,
          e3, getD_cons4, h3]

/-- C8: RGBA buffers (`w*h*4`) are copied through unchanged; RGB buffers
(`w*h*3`) become RGBA of length `w*h*4` with every alpha byte 255 and RGB
bytes preserved in order; grayscale buffers (`w*h`) become RGBA replicating
the value into R/G/B with alpha 255; any other buffer length is unsupported
and the image is skipped by both recovery variants. -/
theorem pixel_channel_handling (w h : ℕ) (data : List ℕ) :
    (data.length = w * h * 4 → convertChannels w h data = some data) ∧
    (0 < w * h → data.length = w * h * 3 →
      ∃ out, convertChannels w h data = some out ∧ out.length = w * h * 4 ∧
        ∀ i < w * h,
          out.getD (4 * i) 0 = data.getD (3 * i) 0 ∧
          out.getD (4 * i + 1) 0 = data.getD (3 * i + 1) 0 ∧
          out.getD (4 * i + 2) 0 = data.getD (3 * i + 2) 0 ∧
          out.getD (4 * i + 3) 0 = 255) ∧
    (0 < w * h → data.length = w * h →
      ∃ out, convertChannels w h data = some out ∧ out.length = w * h * 4 ∧
        ∀ i < w * h,
          out.getD (4 * i) 0 = data.getD i 0 ∧
          out.getD (4 * i + 1) 0 = data.getD i 0 ∧
          out.getD (4 * i + 2) 0 = data.getD i 0 ∧
          out.getD (4 * i + 3) 0 = 255) ∧
    (data.length ≠ w * h * 4 → data.length ≠ w * h * 3 → data.length ≠ w * h →
      convertChannels w h data = none ∧
      processRawImage ⟨w, h, data⟩ = none ∧
      processImage ⟨w, h, data⟩ = none) := by
  refine ⟨fun h4 => by simp [convertChannels, h4], fun hpos h3 => ?_,
    fun hpos h1 => ?_, fun h4 h3 h1 => ?_⟩
  · have hne4 : data.length ≠ w * h * 4 := by omega
    refine ⟨expand3 data, by unfold convertChannels; rw [if_neg hne4, if_pos h3], ?_, ?_⟩
    · have := expand3_length (w * h) data (by omega)
      omega
    · intro i hi
      exact expand3_get (w * h) data i (by omega) hi
  · have hne4 : data.length ≠ w * h * 4 := by omega
    have hne3 : data.length ≠ w * h * 3 := by omega
    refine ⟨expand1 data,
      by unfold convertChannels; rw [if_neg hne4, if_neg hne3, if_pos h1], ?_, ?_⟩
    · have := expand1_length data
      omega
    · intro i hi
      exact expand1_get data i (by omega)
  · have hc : convertChannels w h data = none := by
      simp [convertChannels, h4, h3, h1]
    refine ⟨hc, ?_, ?_⟩
    · simp only [processRawImage, hc]
      split <;> [rfl; skip]
      split <;> rfl
    · simp only [processImage, hc]
      split <;> [rfl; skip]
      split <;> [rfl; skip]
      split <;> [rfl; skip]
      split <;> rfl

/-- Concrete instantiation of `pixel_channel_handling` on a 2×1 RGB buffer
and on a bad-length buffer. -/
theorem pixel_channel_handling_witness :
    (∃ out, convertChannels 2 1 [10, 20, 30, 40, 50, 60] = some out ∧
      out.length = 2 * 1 * 4 ∧
      ∀ i < 2 * 1,
        out.getD (4 * i) 0 = [10, 20, 30, 40, 50, 60].getD (3 * i) 0 ∧
        out.getD (4 * i + 1) 0 = [10, 20, 30, 40, 50, 60].getD (3 * i + 1) 0 ∧
        out.getD (4 * i + 2) 0 = [10, 20, 30, 40, 50, 60].getD (3 * i + 2) 0 ∧
        out.getD (4 * i + 3) 0 = 255) ∧
    processRawImage ⟨2, 1, [1, 2, 3, 4, 5]⟩ = none := by
  constructor
  · exact (pixel_channel_handling 2 1 [10, 20, 30, 40, 50, 60]).2.1
      (by decide) (by decide)
  · exact ((pixel_channel_handling 2 1 [1, 2, 3, 4, 5]).2.2.2
      (by decide) (by decide) (by decide)).2.1

/-! ## Text windowing and PDF extraction orchestration
(`extractImagesFromPdf` in `src/services/pdfService.ts`) -/

/-- Split a character list at every character satisfying `p`, keeping empty
segments. -/
def splitWhen (p : Char → Bool) (l : List Char) : List (List Char) :=
  l.foldr
    (fun c acc =>
      match acc with
      | [] => [[c]]
      | cur :: rest => if p c then [] :: cur :: rest else (c :: cur) :: rest)
    [[]]

/-- Join character-list words with single spaces (also models JavaScript
`array.join(' ')`, where empty entries contribute nothing but their
separators). -/
def joinWords : List (List Char) → List Char
  | [] => []
  | [w] => w
  | w :: ws => w ++ ' ' :: joinWords ws

/-- `.replace(/\s+/g, ' ').trim()`: collapse whitespace runs to single
spaces and trim the ends — equivalently, re-join the whitespace-separated
words with single spaces. -/
def normalizeWs (s : String) : String :=
  String.mk (joinWords ((splitWhen Char.isWhitespace s.data).filter
    (fun w => !w.isEmpty)))

/-- A PDF page as the extraction loop sees it: the text items reported by
`getTextContent` and the raw images painted on the page. -/
structure PdfPage where
  items : List String
  images : List RawImage
deriving DecidableEq, Repr

/-- One page's text: `items.map(i => i.str).join(' ')` normalized. -/
def pageText (pg : PdfPage) : String :=
  normalizeWs (String.mk (joinWords (pg.items.map String.data)))

/-- The text pre-extraction pass over all pages (completed before any window
is assembled). -/
def pdfPageTexts (pages : List PdfPage) : List String := pages.map pageText

/-- `pageTexts[i] || ''` with the 1-based indexing of the source (index 0 is
the empty sentry, indices beyond the last page read as empty). -/
def pageTextAt (texts : List String) (i : ℕ) : String :=
  if 1 ≤ i then texts.getD (i - 1) "" else ""

/-- The 3-page context window template of the PDF path. -/
def pdfWindow (texts : List String) (p : ℕ) : String :=
  "\n      [SLIDE " ++ toString (p - 1) ++ " TEXT]: " ++ pageTextAt texts (p - 1) ++
  "\n      [SLIDE " ++ toString p ++ " TEXT]: " ++ pageTextAt texts p ++
  "\n      [SLIDE " ++ toString (p + 1) ++ " TEXT]: " ++ pageTextAt texts (p + 1) ++
  "\n      "

/-- The 3-page context window template of the PPTX path
(`src/services/pptxService.ts`). -/
def pptxWindow (texts : List String) (p : ℕ) : String :=
  "\n            [SLIDE " ++ toString (p - 1) ++ "]: " ++ pageTextAt texts (p - 1) ++
  "\n            [SLIDE " ++ toString p ++ "]: " ++ pageTextAt texts p ++
  "\n            [SLIDE " ++ toString (p + 1) ++ "]: " ++ pageTextAt texts (p + 1) ++
  "\n            "

/-- An extraction candidate of the PDF path; `(width, height, rgba)` stands
for the candidate's encoded data URL (PNG encoding is injective in the
pixel buffer). -/
structure PdfCandidate where
  width : ℕ
  height : ℕ
  rgba : List ℕ
  pageIndex : ℕ
  contextText : String
deriving DecidableEq, Repr

/-- The per-page image loop: recover each painted image, skip unsupported or
filtered ones, deduplicate against the data URLs seen so far, and attach the
page's context window to each fresh candidate. -/
def extractPdfImages (texts : List String) (p : ℕ) :
    List RawImage → List (ℕ × ℕ × List ℕ) →
    List PdfCandidate × List (ℕ × ℕ × List ℕ)
  | [], seen => ([], seen)
  | img :: rest, seen =>
    match processRawImage img with
    | none => extractPdfImages texts p rest seen
    | some rgba =>
      if (img.width, img.height, rgba) ∈ seen then
        extractPdfImages texts p rest seen
      else
        let out := extractPdfImages texts p rest ((img.width, img.height, rgba) :: seen)
        (⟨img.width, img.height, rgba, p, pdfWindow texts p⟩ :: out.1, out.2)

/-- The page loop of `extractImagesFromPdf`, pages numbered from `start`. -/
def extractPdfPagesAux (texts : List String) :
    ℕ → List PdfPage → List (ℕ × ℕ × List ℕ) → List PdfCandidate
  | _, [], _ => []
  | p, pg :: rest, seen =>
    let out := extractPdfImages texts p pg.images seen
    out.1 ++ extractPdfPagesAux texts (p + 1) rest out.2

/-- `extractImagesFromPdf`: pre-extract every page's text, then walk the
pages in order collecting deduplicated candidates. -/
def extractImagesFromPdf (pages : List PdfPage) : List PdfCandidate :=
  extractPdfPagesAux (pdfPageTexts pages) 1 pages []

theorem extractPdfImages_mem (texts : List String) (p : ℕ) :
    ∀ (imgs : List RawImage) (seen : List (ℕ × ℕ × List ℕ))
      (c : PdfCandidate), c ∈ (extractPdfImages texts p imgs seen).1 →
      c.pageIndex = p ∧ c.contextText = pdfWindow texts p := by
  intro imgs
  induction imgs with
  | nil => intro seen c hc; simp [extractPdfImages] at hc
  | cons img rest ih =>
    intro seen c hc
    rw [extractPdfImages] at hc
    rcases hpi : processRawImage img with _ | rgba <;>
      rw [hpi] at hc <;> dsimp only at hc
    · exact ih seen c hc
    · by_cases hseen : (img.width, img.height, rgba) ∈ seen
      · rw [if_pos hseen] at hc
        exact ih seen c hc
      · rw [if_neg hseen] at hc
        dsimp only at hc
        rcases List.mem_cons.mp hc with rfl | hc'
        · exact ⟨rfl, rfl⟩
        · exact ih _ c hc'

theorem extractPdfPagesAux_mem (texts : List String) :
    ∀ (pages : List PdfPage) (start : ℕ) (seen : List (ℕ × ℕ × List ℕ))
      (c : PdfCandidate), c ∈ extractPdfPagesAux texts start pages seen →
      start ≤ c.pageIndex ∧ c.pageIndex < start + pages.length ∧
      c.contextText = pdfWindow texts c.pageIndex := by
  intro pages
  induction pages with
  | nil => intro start seen c hc; simp [extractPdfPagesAux] at hc
  | cons pg rest ih =>
    intro start seen c hc
    rw [extractPdfPagesAux] at hc
    rcases List.mem_append.mp hc with hc' | hc'
    · obtain ⟨hp, hw⟩ := extractPdfImages_mem texts start pg.images seen c hc'
      refine ⟨le_of_eq hp.symm, ?_, hp ▸ hw⟩
      rw [hp]
      simp
    · obtain ⟨h1, h2, h3⟩ := ih (start + 1) _ c hc'
      refine ⟨by omega, ?_, h3⟩
      simp only [List.length_cons]
      omega

/-- C7: every candidate produced by the PDF extraction carries the context
window of its page `p`, assembled from exactly the pre-extracted texts of
pages `p-1`, `p`, `p+1` — with the empty string at both boundaries, and
independent of every other page's text (shown for the PDF and the PPTX
window template alike). -/
theorem context_window_exact (pages : List PdfPage) :
    (∀ c ∈ extractImagesFromPdf pages,
        1 ≤ c.pageIndex ∧ c.pageIndex ≤ pages.length ∧
        c.contextText = pdfWindow (pdfPageTexts pages) c.pageIndex) ∧
    (∀ (texts texts' : List String) (p : ℕ),
        pageTextAt texts (p - 1) = pageTextAt texts' (p - 1) →
        pageTextAt texts p = pageTextAt texts' p →
        pageTextAt texts (p + 1) = pageTextAt texts' (p + 1) →
        pdfWindow texts p = pdfWindow texts' p ∧
        pptxWindow texts p = pptxWindow texts' p) ∧
    (∀ texts : List String, pageTextAt texts 0 = "" ∧
        ∀ p, texts.length < p → pageTextAt texts p = "") := by
  refine ⟨fun c hc => ?_, fun texts texts' p h₀ h₁ h₂ => ?_, fun texts => ⟨rfl, ?_⟩⟩
  · obtain ⟨h1, h2, h3⟩ :=
      extractPdfPagesAux_mem (pdfPageTexts pages) pages 1 [] c hc
    refine ⟨h1, by omega, h3⟩
  · constructor <;> simp only [pdfWindow, pptxWindow, h₀, h₁, h₂]
  · intro p hp
    have h1 : 1 ≤ p := by omega
    simp only [pageTextAt, if_pos h1]
    apply List.getD_eq_default
    omega

/-- The head read off via `getD` belongs to a nonempty list. -/
theorem getD_zero_mem {α : Type _} (l : List α) (d : α) (h : l ≠ []) :
    l.getD 0 d ∈ l := by
  cases l with
  | nil => exact absurd rfl h
  | cons a t => simp [List.getD_cons_zero]

set_option maxRecDepth 10000 in
/-- Concrete instantiation of `context_window_exact`: a two-page document
whose first page paints one 30×30 grayscale image, and window insensitivity
to a fourth page's text. -/
theorem context_window_exact_witness :
    pdfWindow ["A", "B", "C"] 2 = pdfWindow ["A", "B", "C", "D"] 2 ∧
    ((extractImagesFromPdf
        [⟨["Alpha"], [⟨30, 30, List.replicate 900 7⟩]⟩, ⟨["Beta"], []⟩]).getD 0
        ⟨0, 0, [], 0, ""⟩).contextText =
      pdfWindow
        (pdfPageTexts [⟨["Alpha"], [⟨30, 30, List.replicate 900 7⟩]⟩, ⟨["Beta"], []⟩])
        ((extractImagesFromPdf
            [⟨["Alpha"], [⟨30, 30, List.replicate 900 7⟩]⟩, ⟨["Beta"], []⟩]).getD 0
            ⟨0, 0, [], 0, ""⟩).pageIndex := by
  constructor
  · exact ((context_window_exact []).2.1 ["A", "B", "C"] ["A", "B", "C", "D"] 2
      (by decide) (by decide) (by decide)).1
  · exact ((context_window_exact
      [⟨["Alpha"], [⟨30, 30, List.replicate 900 7⟩]⟩, ⟨["Beta"], []⟩]).1 _
      (getD_zero_mem _ _ (by decide))).2.2

/-! ## PPTX slide file ordering (`extractImagesFromPptx` in
`src/services/pptxService.ts`) -/

/-- Match a zip entry against `^ppt\/slides\/slide\d+\.xml$` and extract the
embedded slide number. -/
def slideFileNumber (path : String) : Option ℕ :=
  let d := path.data
  let pre := "ppt/slides/slide".data
  if leadsWith d pre then
    let rest := d.drop pre.length
    let digits := rest.takeWhile Char.isDigit
    if digits.isEmpty then none
    else if rest.drop digits.length = ".xml".data then
      some (digits.foldl (fun a c => a * 10 + (c.toNat - 48)) 0)
    else none
  else none

/-- The numeric sort key of a slide file (`parseInt` of the matched group). -/
def slideKey (path : String) : ℕ := (slideFileNumber path).getD 0

/-- The slide-file selection of `extractImagesFromPptx`: filter the zip
entries to `ppt/slides/slide<N>.xml` and sort by the embedded number
(the comparator `numA - numB`). -/
def slideFiles (paths : List String) : List String :=
  (paths.filter (fun p => (slideFileNumber p).isSome)).insertionSort
    (fun a b => slideKey a ≤ slideKey b)

/-- C9: slide files are processed in ascending numeric order of the embedded
index, not lexicographic filename order: the selected files are a
permutation of the matching entries sorted by `slideKey`, and on
`{slide2, slide10, slide1}` the order is `1, 2, 10`. -/
theorem slide_numeric_order (paths : List String) :
    (slideFiles paths).Pairwise (fun a b => slideKey a ≤ slideKey b) ∧
    (slideFiles paths).Perm
      (paths.filter (fun p => (slideFileNumber p).isSome)) ∧
    slideFiles ["ppt/slides/slide2.xml", "ppt/slides/slide10.xml",
        "ppt/slides/slide1.xml"] =
      ["ppt/slides/slide1.xml", "ppt/slides/slide2.xml",
        "ppt/slides/slide10.xml"] := by
  refine ⟨?_, ?_, ?_⟩
  · haveI ht : IsTotal String (fun a b => slideKey a ≤ slideKey b) :=
      ⟨fun a b => Nat.le_total _ _⟩
    haveI htr : IsTrans String (fun a b => slideKey a ≤ slideKey b) :=
      ⟨fun _ _ _ => Nat.le_trans⟩
    exact List.sorted_insertionSort _ _
  · exact List.perm_insertionSort _ _
  · decide

end FlashcardAI
